import Mathlib

/-!
Verification development for the mermaid-mcp-app repository.

The source of truth is `src/mcp-app.tsx` (React UI of the MCP app).  Text is
modelled as `List Char`; the JavaScript string operations and the regular
expressions used by the code are embedded as executable Lean functions on
`List Char`.  The asynchronous render pipeline (`renderMermaid` and the
`app.ontoolinput*` handlers) is embedded as a small labelled transition
machine whose suspension points are exactly the `await` points of the code.
-/

namespace MermaidApp

/-- ASCII whitespace, modelling the JavaScript regex class `\s` (the Unicode
space characters that `\s` additionally accepts never occur in the inputs
considered here). -/
def jsSpace (c : Char) : Bool :=
  c = ' ' || c = '\t' || c = '\n' || c = '\r' || c = '\x0b' || c = '\x0c'

/-- Lower-case a text; used to model the `i` (ignore-case) regex flag by
lowering both the pattern literal and the subject. -/
def lowerChars (l : List Char) : List Char :=
  l.map Char.toLower

/-- Does `p` occur as a prefix of `l`?  (Literal, case-sensitive.) -/
def matchPrefix : List Char → List Char → Bool
  | [], _ => true
  | _ :: _, [] => false
  | p :: ps, c :: cs => p = c && matchPrefix ps cs

/-- JavaScript `str.split('\n')`: split a text at every newline; always
returns at least one (possibly empty) line. -/
def splitNL : List Char → List (List Char)
  | [] => [[]]
  | c :: t =>
    if c = '\n' then [] :: splitNL t
    else
      match splitNL t with
      | l :: ls => (c :: l) :: ls
      | [] => [[c]]

/-- JavaScript `lines.join('\n')`. -/
def joinNL : List (List Char) → List Char
  | [] => []
  | [l] => l
  | l :: ls => l ++ '\n' :: joinNL ls

/-- JavaScript `Set.add`: append `x` unless already present, so iteration
order is insertion order. -/
def addUnique (x : List Char) (xs : List (List Char)) : List (List Char) :=
  if x ∈ xs then xs else xs ++ [x]

/-- JavaScript `str.trim()` (ASCII whitespace). -/
def trimList (l : List Char) : List Char :=
  ((l.dropWhile jsSpace).reverse.dropWhile jsSpace).reverse

/-- The regex `line.match(/^\s*subgraph\s+(\S+)/i)` of `fixSubgraphCycles`
(mcp-app.tsx line 70): leading whitespace, the literal `subgraph`
(case-insensitively), at least one whitespace character, then the captured
maximal nonempty run of non-whitespace characters (returned in original
case). -/
def parseSubgraphDecl (line : List Char) : Option (List Char) :=
  let rest := line.dropWhile jsSpace
  if lowerChars (rest.take 8) = "subgraph".data then
    match rest.drop 8 with
    | c :: r =>
      if jsSpace c then
        let name := (r.dropWhile jsSpace).takeWhile (fun d => !jsSpace d)
        if name = [] then none else some name
      else none
    | [] => none
  else none

/-- The regex test `/^\s*subgraph\s/i.test(line)` (mcp-app.tsx lines 78
and 97): is this line a subgraph declaration line? -/
def isSubgraphDeclLine (line : List Char) : Bool :=
  let rest := line.dropWhile jsSpace
  lowerChars (rest.take 8) = "subgraph".data &&
    match rest.drop 8 with
    | c :: _ => jsSpace c
    | [] => false

/-- The shape-opening character class `[\[\(\{\>]` of the node-definition
pattern (mcp-app.tsx line 82). -/
def shapeOpen (c : Char) : Bool :=
  c = '[' || c = '(' || c = '{' || c = '>'

/-- Tail of the node-definition pattern: the (already lowered) id literal,
then `\s*`, then a shape-opening character.  Since the id never starts or
ends with whitespace and shape openers are not whitespace, the backtracking
semantics of `\s*` coincides with dropping the maximal whitespace run. -/
def idShapeMatch (idL t : List Char) : Bool :=
  matchPrefix idL t &&
    match (t.drop idL.length).dropWhile jsSpace with
    | c :: _ => shapeOpen c
    | [] => false

/-- One attempted match of the node-definition pattern
`(?:^|\s|-->|--o|--x|-\.->|==>|\|[^|]*\|\s*)ID\s*[\[\(\{\>]`
(mcp-app.tsx line 82) at a fixed start position: `t` is the suffix of the
lowered line starting there and `atStart` records whether the position is
the beginning of the line (the `^` alternative).  In the `\|[^|]*\|\s*`
alternative the second `|` is necessarily the first `|` after the opening
one, because `[^|]*` cannot cross a `|`. -/
def nodeDefHere (idL : List Char) (atStart : Bool) (t : List Char) : Bool :=
  (atStart && idShapeMatch idL t) ||
    match t with
    | [] => false
    | c :: r =>
      (jsSpace c && idShapeMatch idL r) ||
      (matchPrefix "-->".data t && idShapeMatch idL (t.drop 3)) ||
      (matchPrefix "--o".data t && idShapeMatch idL (t.drop 3)) ||
      (matchPrefix "--x".data t && idShapeMatch idL (t.drop 3)) ||
      (matchPrefix "-.->".data t && idShapeMatch idL (t.drop 4)) ||
      (matchPrefix "==>".data t && idShapeMatch idL (t.drop 3)) ||
      (c = '|' &&
        match r.dropWhile (fun d => !(d = '|')) with
        | d :: r2 => d = '|' && idShapeMatch idL (r2.dropWhile jsSpace)
        | [] => false)

/-- Try the node-definition pattern at every start position of `t`
(`RegExp.test` semantics). -/
def nodeDefScan (idL : List Char) (atStart : Bool) (t : List Char) : Bool :=
  nodeDefHere idL atStart t ||
    match t with
    | [] => false
    | _ :: r => nodeDefScan idL false r

/-- The test `nodeDefPattern.test(line)` of `fixSubgraphCycles`
(mcp-app.tsx lines 82-83).  The `i` flag is modelled by lowering both the
subgraph id and the line. -/
def nodeDefTest (sgId line : List Char) : Bool :=
  nodeDefScan (lowerChars sgId) true (lowerChars line)

/-- The JavaScript regex word-character class `\w` = `[A-Za-z0-9_]`. -/
def wordChar (c : Char) : Bool :=
  c.isAlphanum || c = '_'

def isWordOpt : Option Char → Bool
  | some c => wordChar c
  | none => false

/-- The word-boundary assertion `\b` between two adjacent positions: holds
when exactly one side is a word character (string edges count as
non-word). -/
def boundaryB (a b : Option Char) : Bool :=
  isWordOpt a != isWordOpt b

/-- JavaScript `line.replace(new RegExp('\\b' + id + '\\b', 'g'), repl)`
with a literal (escaped) id: scan left to right; at each position, if the
id occurs with a word boundary on both sides, emit `repl` and continue
after the match; otherwise copy one character.  `prev` is the character
just before the current position in the original line. -/
def gsubTokenF (idv repl : List Char) : Nat → Option Char → List Char → List Char
  | 0, _, rest => rest
  | _ + 1, _, [] => []
  | fuel + 1, prev, c :: t =>
    if !idv.isEmpty && matchPrefix idv (c :: t) && boundaryB prev (some c) &&
        boundaryB (some (idv.getLastD ' ')) ((c :: t).drop idv.length).head? then
      repl ++ gsubTokenF idv repl fuel (some (idv.getLastD ' ')) ((c :: t).drop idv.length)
    else
      c :: gsubTokenF idv repl fuel (some c) t

/-- Entry point of the global replace: the fuel `rest.length` is enough
because every scan step consumes at least one character of the nonempty
pattern. -/
def gsubToken (idv repl : List Char) (prev : Option Char) (rest : List Char) :
    List Char :=
  gsubTokenF idv repl rest.length prev rest

/-- Collect the subgraph names, in first-declaration order
(mcp-app.tsx lines 68-72). -/
def subgraphIds (ls : List (List Char)) : List (List Char) :=
  ls.foldl
    (fun acc line =>
      match parseSubgraphDecl line with
      | some n => addUnique n acc
      | none => acc) []

/-- Collect the subgraph names that collide with a node definition on some
non-declaration line, in detection order (mcp-app.tsx lines 76-87). -/
def collisions (sgIds : List (List Char)) (ls : List (List Char)) :
    List (List Char) :=
  ls.foldl
    (fun acc line =>
      if isSubgraphDeclLine line then acc
      else
        sgIds.foldl
          (fun acc2 sg => if nodeDefTest sg line then addUnique sg acc2 else acc2)
          acc) []

/-- The structural-repair pass `fixSubgraphCycles` (mcp-app.tsx lines
65-104): collect subgraph names; if none, return the input; find names
that collide with a node definition; if none, return the input; otherwise
for each colliding id replace every `\b`-delimited occurrence outside
subgraph declaration lines by the id with `_svc` appended. -/
def fixSubgraphCycles (text : List Char) : List Char :=
  let ls := splitNL text
  let sgIds := subgraphIds ls
  if sgIds = [] then text
  else
    let cols := collisions sgIds ls
    if cols = [] then text
    else
      cols.foldl
        (fun fixed sg =>
          joinNL ((splitNL fixed).map (fun line =>
            if isSubgraphDeclLine line then line
            else gsubToken sg (sg ++ "_svc".data) none line)))
        text

/-- Result of the fit-to-view computation: zoom factor and centering
translation (mcp-app.tsx `calcFitView`). -/
structure FitView where
  zoom : ℚ
  panX : ℚ
  panY : ℚ
  deriving DecidableEq

/-- The numeric core of `calcFitView` (mcp-app.tsx lines 377-401), given
the measured natural size of the SVG and the viewport size.  JavaScript
numbers are modelled by exact rationals; the falsy guard `!svgW || !svgH`
becomes an equality test with zero. -/
def calcFitView (svgW svgH vpW vpH : ℚ) : FitView :=
  if svgW = 0 ∨ svgH = 0 then ⟨1, 0, 0⟩
  else
    let zoom := min (vpW / svgW) (vpH / svgH) * (92 / 100)
    ⟨zoom, (vpW - svgW * zoom) / 2, (vpH - svgH * zoom) / 2⟩

/-- The `DiagramState` record of mcp-app.tsx (lines 12-17). -/
structure DiagramState where
  mermaid : List Char
  theme : List Char
  title : Option (List Char)
  checkpointId : Option (List Char)
  deriving DecidableEq

/-- The fields of `result.structuredContent` that the `ontoolresult`
handler can observe (it destructures only `checkpointId`; the echoed theme
is modelled explicitly to show it is ignored). -/
structure ToolResultContent where
  checkpointId : Option (List Char)
  theme : Option (List Char)
  deriving DecidableEq

/-- The `app.ontoolresult` handler (mcp-app.tsx lines 174-181): when the
result carries a truthy (nonempty) checkpoint id, update only the
`checkpointId` field of the previous state; otherwise leave the state
alone. -/
def ontoolresult (res : ToolResultContent) (prev : DiagramState) : DiagramState :=
  match res.checkpointId with
  | some c => if c = [] then prev else { prev with checkpointId := some c }
  | none => prev

/-- The error message committed on a failed final render:
`renderErr.message || "Failed to render diagram"` (mcp-app.tsx line 246),
where the JavaScript `||` falls back exactly on the empty (falsy)
string. -/
def errMsg (m : List Char) : List Char :=
  if m = [] then "Failed to render diagram".data else m

/-- Outcome of the opaque `mermaid.render` call. -/
inductive RResult where
  | ok (svg : List Char)
  | err (msg : List Char)
  deriving DecidableEq

/-- Where the single render attempt currently stands.  `renderingRef` of
the code is true exactly when the phase is not `idle`; `validating` is the
suspension at `await mermaid.parse` (only reached by streamed attempts)
and `calling` is the suspension at `await mermaid.render`.  Each phase
records the repaired syntax of the in-flight attempt; `calling` also
records whether the attempt was streamed (the `isPartial` argument of
`renderMermaid`). -/
inductive Phase where
  | idle
  | validating (safe : List Char)
  | calling (safe : List Char) (streamed : Bool)
  deriving DecidableEq

/-- The mutable component state relevant to the render pipeline:
`renderedSvg`, `error`, `isStreaming`, and the gate (`renderingRef` plus
the pending awaited call), per mcp-app.tsx lines 116-130. -/
structure MachineState where
  svg : List Char
  error : Option (List Char)
  streaming : Bool
  phase : Phase
  deriving DecidableEq

/-- Initial component state: empty SVG, no error, not streaming, no render
in flight (mcp-app.tsx lines 116-130). -/
def initState : MachineState :=
  ⟨[], none, false, Phase.idle⟩

/-- The entry of `renderMermaid(syntax, theme, isPartial)` up to its first
suspension point (mcp-app.tsx lines 202-236): empty-after-trim input
returns immediately; a render already in flight returns immediately (the
attempt is dropped); otherwise the in-flight flag is taken, the structural
repair runs, and the attempt either suspends at `mermaid.parse` (streamed)
or issues the `mermaid.render` call (final).  The second component lists
the syntaxes passed to `mermaid.render` by this step. -/
def attemptEntry (text : List Char) (streamed : Bool) (s : MachineState) :
    MachineState × List (List Char) :=
  if trimList text = [] then (s, [])
  else
    match s.phase with
    | Phase.idle =>
      let safe := fixSubgraphCycles text
      if streamed then ({ s with phase := Phase.validating safe }, [])
      else ({ s with phase := Phase.calling safe false }, [safe])
    | _ => (s, [])

/-- External events of one displayed surface.  `deltaInput` is a partial
tool-input notification (`app.ontoolinputpartial`), `finalInput` a final
one (`app.ontoolinput`, which always calls `renderMermaid` with
`isPartial = false`); `parsed` and `rendered` are the completions of the
awaited `mermaid.parse` and `mermaid.render` calls of the in-flight
attempt. -/
inductive Event where
  | deltaInput (text : List Char)
  | finalInput (text : List Char)
  | parsed (ok : Bool)
  | rendered (r : RResult)
  deriving DecidableEq

/-- One step of the session: the handler invoked by the event runs to its
next suspension point.  `deltaInput` only sets the streaming indicator
(mcp-app.tsx lines 138-140); `finalInput` clears it and enters
`renderMermaid` (lines 142-172); `parsed`/`rendered` resume the suspended
attempt (lines 224-251): a failed parse returns silently, a successful
render commits the SVG and clears the error, a failed render leaves the
SVG alone and sets the error only when the attempt was final; in every
case the in-flight flag is released on return. -/
def step (e : Event) (s : MachineState) : MachineState × List (List Char) :=
  match e with
  | Event.deltaInput _ => ({ s with streaming := true }, [])
  | Event.finalInput text => attemptEntry text false { s with streaming := false }
  | Event.parsed ok =>
    match s.phase with
    | Phase.validating safe =>
      if ok then ({ s with phase := Phase.calling safe true }, [safe])
      else ({ s with phase := Phase.idle }, [])
    | _ => (s, [])
  | Event.rendered r =>
    match s.phase with
    | Phase.calling _ streamed =>
      match r with
      | RResult.ok g => ({ s with svg := g, error := none, phase := Phase.idle }, [])
      | RResult.err m =>
        if streamed then ({ s with phase := Phase.idle }, [])
        else ({ s with error := some (errMsg m), phase := Phase.idle }, [])
    | _ => (s, [])

/-- Run a sequence of events, collecting every syntax passed to
`mermaid.render`. -/
def run (evs : List Event) (s : MachineState) : MachineState × List (List Char) :=
  match evs with
  | [] => (s, [])
  | e :: rest =>
    let p := step e s
    let q := run rest p.1
    (q.1, p.2 ++ q.2)

/-- Spec-modelled: step 2 of the Bracket/Tag Repair Engine (spec §4.1),
which is absent from the repository sources.  Strip a trailing
unterminated markup-tag fragment: an opening angle bracket followed only
by tag-name-like characters up to the end of the text. -/
def stripTagFragment (line : List Char) : List Char :=
  let rev := line.reverse
  let tail := rev.takeWhile (fun c => c.isAlphanum || c = '/')
  match rev.drop tail.length with
  | '<' :: rest => if tail = [] then line else rest.reverse
  | _ => line

/-- Spec-modelled: step 3 of the Bracket/Tag Repair Engine (spec §4.1),
absent from the repository sources.  Strip a trailing unterminated
character-entity fragment: an ampersand followed only by alphanumerics or
`#` up to the end of the text, with no terminating semicolon. -/
def stripEntityFragment (line : List Char) : List Char :=
  let rev := line.reverse
  let tail := rev.takeWhile (fun c => c.isAlphanum || c = '#')
  match rev.drop tail.length with
  | '&' :: rest => rest.reverse
  | _ => line

/-- The closing delimiter expected for an opening bracket of the three
balanced families (spec §4.1 step 4). -/
def closerFor : Char → Option Char
  | '[' => some ']'
  | '(' => some ')'
  | '{' => some '}'
  | _ => none

/-- Spec-modelled: step 4 of the Bracket/Tag Repair Engine (spec §4.1),
absent from the repository sources.  Scan the line left to right keeping a
stack of expected closers; a closer matching the top pops it, any other
character is ignored; at the end append the still-open closers innermost
first. -/
def balanceLine (line : List Char) : List Char :=
  line ++
    line.foldl
      (fun st c =>
        match closerFor c with
        | some cl => cl :: st
        | none =>
          match st with
          | top :: rest => if c = top then rest else st
          | [] => st) []

/-- Spec-modelled: steps 2-4 of the Repair Engine applied after the final
line has been discarded: the end-of-text strips and the bracket balancing
act on the new final line. -/
def repairKept (kept : List (List Char)) : List Char :=
  joinNL (kept.dropLast ++
    [balanceLine (stripEntityFragment (stripTagFragment (kept.getLastD [])))])

/-- Modelled from the spec: the Bracket/Tag Repair Engine of §4.1 is not
present in the repository sources (`renderMermaid` never repairs partial
text).  Per the spec: a single-line text is returned unchanged; otherwise
the final line is discarded entirely and steps 2-4 repair the remaining
text. -/
def repairText (text : List Char) : List Char :=
  let ls := splitNL text
  if ls.length ≤ 1 then text
  else repairKept ls.dropLast

/-! Helper lemmas. -/

lemma foldl_nodeDefTest_const (line : List Char) (sgIds : List (List Char))
    (acc : List (List Char))
    (h : ∀ sg ∈ sgIds, nodeDefTest sg line = false) :
    sgIds.foldl
      (fun acc2 sg => if nodeDefTest sg line then addUnique sg acc2 else acc2)
      acc = acc := by
  induction sgIds generalizing acc with
  | nil => rfl
  | cons a l ih =>
    simp only [List.foldl_cons, h a (by simp)]
    simp only [Bool.false_eq_true, if_false]
    exact ih acc (fun sg hs => h sg (by simp [hs]))

lemma collisions_eq_nil (sgIds ls : List (List Char))
    (h : ∀ line ∈ ls, isSubgraphDeclLine line = false →
      ∀ sg ∈ sgIds, nodeDefTest sg line = false) :
    collisions sgIds ls = [] := by
  unfold collisions
  suffices H : ∀ acc, ls.foldl
      (fun acc line =>
        if isSubgraphDeclLine line then acc
        else
          sgIds.foldl
            (fun acc2 sg => if nodeDefTest sg line then addUnique sg acc2 else acc2)
            acc) acc = acc from H []
  intro acc
  induction ls generalizing acc with
  | nil => rfl
  | cons line rest ih =>
    simp only [List.foldl_cons]
    by_cases hd : isSubgraphDeclLine line
    · simp only [hd, if_true]
      exact ih (fun l hl => h l (by simp [hl])) acc
    · simp only [hd, Bool.false_eq_true, if_false]
      rw [foldl_nodeDefTest_const line sgIds acc
        (h line (by simp) (by simpa using hd))]
      exact ih (fun l hl => h l (by simp [hl])) acc

lemma step_phase_not_validating (e : Event) (s : MachineState)
    (h : ∀ p, s.phase ≠ Phase.validating p) :
    ∀ p, (step e s).1.phase ≠ Phase.validating p := by
  intro p
  cases e with
  | deltaInput t => simpa [step] using h p
  | finalInput t =>
    simp only [step, attemptEntry]
    split
    · simpa using h p
    · cases hp : s.phase with
      | idle => simp [hp]
      | validating q => exact absurd hp (h q)
      | calling q b => simp [hp]
  | parsed ok =>
    cases hp : s.phase with
    | idle => simp [step, hp]
    | validating q => exact absurd hp (h q)
    | calling q b => simp [step, hp]
  | rendered r =>
    cases hp : s.phase with
    | idle => simp [step, hp]
    | validating q => exact absurd hp (h q)
    | calling q b =>
      cases r with
      | ok g => simp [step, hp]
      | err m => cases b <;> simp [step, hp]

lemma step_emit_source (e : Event) (s : MachineState) (c : List Char)
    (hc : c ∈ (step e s).2) :
    (∃ p, s.phase = Phase.validating p ∧ c = p) ∨
      (∃ t, e = Event.finalInput t ∧ c = fixSubgraphCycles t) := by
  cases e with
  | deltaInput t => simp [step] at hc
  | finalInput t =>
    simp only [step, attemptEntry] at hc
    split at hc
    · simp at hc
    · cases hp : s.phase with
      | idle =>
        simp [hp] at hc
        exact Or.inr ⟨t, rfl, hc⟩
      | validating q => simp [hp] at hc
      | calling q b => simp [hp] at hc
  | parsed ok =>
    cases hp : s.phase with
    | idle => simp [step, hp] at hc
    | validating q =>
      cases ok with
      | false => simp [step, hp] at hc
      | true =>
        simp [step, hp] at hc
        exact Or.inl ⟨q, rfl, hc⟩
    | calling q b => simp [step, hp] at hc
  | rendered r =>
    cases hp : s.phase with
    | idle => simp [step, hp] at hc
    | validating q => simp [step, hp] at hc
    | calling q b =>
      cases r with
      | ok g => simp [step, hp] at hc
      | err m => cases b <;> simp [step, hp] at hc

lemma run_no_render (evs : List Event) (s : MachineState) (c : List Char)
    (hphase : ∀ p, s.phase ≠ Phase.validating p)
    (hnew : ∀ t, Event.finalInput t ∈ evs → fixSubgraphCycles t ≠ c) :
    c ∉ (run evs s).2 := by
  induction evs generalizing s with
  | nil => simp [run]
  | cons e rest ih =>
    simp only [run, List.mem_append]
    push_neg
    constructor
    · intro hc
      rcases step_emit_source e s c hc with ⟨p, hp, _⟩ | ⟨t, het, hct⟩
      · exact hphase p hp
      · exact hnew t (by simp [het]) hct.symm
    · exact ih (step e s).1 (step_phase_not_validating e s hphase)
        (fun t ht => hnew t (by simp [ht]))

/-! Claim theorems. -/

/-- C10: for every input text with no grouping-construct (subgraph)
declaration, or whose grouping-construct names collide with no member
identifier (no non-declaration line matches the code's node-definition
detection for any subgraph name), the structural-repair pass
`fixSubgraphCycles` is the identity: it returns the input unchanged. -/
theorem fixSubgraphCycles_identity (t : List Char)
    (h : subgraphIds (splitNL t) = [] ∨
      ∀ sg ∈ subgraphIds (splitNL t), ∀ line ∈ splitNL t,
        isSubgraphDeclLine line = false → nodeDefTest sg line = false) :
    fixSubgraphCycles t = t := by
  unfold fixSubgraphCycles
  rcases h with h1 | h2
  · simp [h1]
  · by_cases hsg : subgraphIds (splitNL t) = []
    · simp [hsg]
    · have hc : collisions (subgraphIds (splitNL t)) (splitNL t) = [] :=
        collisions_eq_nil _ _ (fun line hl hnd sg hsg2 => h2 sg hsg2 line hl hnd)

      simp [hsg, hc]

/-- Witness for C10 at a concrete subgraph-free input. -/
theorem fixSubgraphCycles_identity_witness :
    fixSubgraphCycles ("flowchart TD\nA-->B".data) = "flowchart TD\nA-->B".data :=
  fixSubgraphCycles_identity _ (Or.inl (by decide))

/-- Scenario input of C5: a subgraph named `Analytics` containing the
member line `  Analytics[Analytics Service]`. -/
def analyticsInput : List Char :=
  "subgraph Analytics\n  Analytics[Analytics Service]\nend".data

/-- C5 counterexample: contrary to the claim, the repaired document does
not contain the member line `  Analytics_svc[Analytics Service]` — the
whole-token replacement also renames the word `Analytics` inside the
bracket label. -/
theorem fixSubgraphCycles_analytics_cex :
    ("  Analytics_svc[Analytics Service]".data) ∉
      splitNL (fixSubgraphCycles analyticsInput) := by decide

/-- C5 amended: on the scenario input, `fixSubgraphCycles` renames the
member identifier to `Analytics_svc` and also renames the matching word
inside the bracket label (whole-token replacement applies everywhere on
non-declaration lines, label text included), producing the member line
`  Analytics_svc[Analytics_svc Service]`; the declaration line
`subgraph Analytics` is unchanged. -/
theorem fixSubgraphCycles_analytics :
    fixSubgraphCycles analyticsInput =
      "subgraph Analytics\n  Analytics_svc[Analytics_svc Service]\nend".data := by
  decide

/-- Failing input of C6: the subgraph name `A` collides with the node
definition `A[x]` reached through the `--o` edge, an occurrence the code's
own detection pattern recognizes. -/
def cycleBugInput : List Char := "subgraph A\nB --oA[x]\nend".data

/-- C6 (code bug): the collision detector of `fixSubgraphCycles` flags the
subgraph name `A` on `cycleBugInput`, yet the word-boundary based rename
does not touch the occurrence `--oA[x]` (the character before `A` is the
word character `o`), so the function returns its input unchanged and the
member identifier `A` still equals the grouping-construct name `A` after
repair. -/
theorem fixSubgraphCycles_missed_collision :
    fixSubgraphCycles cycleBugInput = cycleBugInput ∧
    subgraphIds (splitNL cycleBugInput) = ["A".data] ∧
    collisions (subgraphIds (splitNL cycleBugInput)) (splitNL cycleBugInput)
      = ["A".data] := by decide

/-- C8: fit-to-view computes
`scale = min(viewportW/graphicW, viewportH/graphicH) × 0.92` and centers
the graphic, `panX = (viewportW − graphicW·scale)/2` and `panY` analogous;
in particular an 800×600 graphic in a 400×300 viewport yields scale 0.46
with the scaled graphic centered (panX = 16, panY = 12). -/
theorem calcFitView_spec :
    (∀ gW gH vW vH : ℚ, gW ≠ 0 → gH ≠ 0 →
      calcFitView gW gH vW vH =
        { zoom := min (vW / gW) (vH / gH) * (92 / 100),
          panX := (vW - gW * (min (vW / gW) (vH / gH) * (92 / 100))) / 2,
          panY := (vH - gH * (min (vW / gW) (vH / gH) * (92 / 100))) / 2 }) ∧
    calcFitView 800 600 400 300 = { zoom := 46 / 100, panX := 16, panY := 12 } := by
  constructor
  · intro gW gH vW vH h1 h2
    unfold calcFitView
    rw [if_neg (by tauto)]
  · unfold calcFitView
    rw [if_neg (by norm_num)]
    simp only [FitView.mk.injEq]
    norm_num

/-- Witness for C8 at a concrete 100×50 graphic in a 200×100 viewport. -/
theorem calcFitView_spec_witness :
    calcFitView 100 50 200 100 = { zoom := 46 / 25, panX := 8, panY := 4 } := by
  rw [calcFitView_spec.1 100 50 200 100 (by norm_num) (by norm_num)]
  simp only [FitView.mk.injEq]
  norm_num

/-- C9: handling a result notification updates only the
checkpoint-identifier field of the diagram state — the description text,
theme and title are unchanged (in particular the echoed server theme never
overrides the theme already chosen by dark-mode detection), and a truthy
checkpoint id is stored. -/
theorem ontoolresult_frame (res : ToolResultContent) (prev : DiagramState) :
    (ontoolresult res prev).mermaid = prev.mermaid ∧
    (ontoolresult res prev).theme = prev.theme ∧
    (ontoolresult res prev).title = prev.title ∧
    (ontoolresult res prev).checkpointId =
      (match res.checkpointId with
        | some c => if c = [] then prev.checkpointId else some c
        | none => prev.checkpointId) := by
  unfold ontoolresult
  cases hcp : res.checkpointId with
  | none => simp
  | some c => by_cases hc : c = [] <;> simp [hc]

/-- C2: when the in-flight render completes with a failure on a final
attempt, the error field is set to the failure reason while the committed
SVG stays byte-identical; on a streamed (partial) attempt the failure
changes neither the SVG nor the error field; a success overwrites the SVG
and clears the error; and entering an attempt never touches the SVG or the
error field. -/
theorem renderOutcome_stateEffects (s s2 : MachineState) (safe : List Char)
    (streamed : Bool) (m g text : List Char) (sb : Bool)
    (h : s.phase = Phase.calling safe streamed) :
    ((step (Event.rendered (RResult.ok g)) s).1.svg = g ∧
      (step (Event.rendered (RResult.ok g)) s).1.error = none) ∧
    (streamed = false →
      step (Event.rendered (RResult.err m)) s =
        ({ s with error := some (errMsg m), phase := Phase.idle }, [])) ∧
    (streamed = true →
      step (Event.rendered (RResult.err m)) s = ({ s with phase := Phase.idle }, [])) ∧
    ((attemptEntry text sb s2).1.svg = s2.svg ∧
      (attemptEntry text sb s2).1.error = s2.error) := by
  refine ⟨by simp [step, h], ?_, ?_, ?_⟩
  · intro hst; subst hst; simp [step, h]
  · intro hst; subst hst; simp [step, h]
  · unfold attemptEntry
    split
    · exact ⟨rfl, rfl⟩
    · cases hp : s2.phase with
      | idle => cases sb <;> simp
      | validating q => simp
      | calling q b => simp

/-- Witness for C2: a failed final render on a concrete state sets the
error and keeps the SVG; a successful render commits the new SVG. -/
theorem renderOutcome_stateEffects_witness :
    step (Event.rendered (RResult.err ("boom".data)))
        ⟨"svg0".data, none, false, Phase.calling ("g".data) false⟩ =
      (⟨"svg0".data, some (errMsg ("boom".data)), false, Phase.idle⟩, []) ∧
    (step (Event.rendered (RResult.ok ("svg1".data)))
        ⟨"svg0".data, none, false, Phase.calling ("g".data) false⟩).1.svg
      = "svg1".data := by
  have H := renderOutcome_stateEffects
    ⟨"svg0".data, none, false, Phase.calling ("g".data) false⟩
    ⟨[], none, false, Phase.idle⟩ ("g".data) false ("boom".data) ("svg1".data)
    [] false rfl
  exact ⟨H.2.1 rfl, H.1.1⟩

/-- C7: the in-flight flag is the sole render gate — a busy state drops
any newly entering attempt without validating or rendering; an attempt
admitted at idle holds the flag already while suspended at the validate
step; a successful validate keeps the flag held while issuing the render
call; no input or parse event releases the flag of an in-flight render;
and the flag is released when the render call completes.  Hence no two
attempts' validate/render work can interleave. -/
theorem renderGate_exclusion (s sI sV sC : MachineState)
    (text tD safe : List Char) (sb st : Bool) (pr : RResult) (ok : Bool)
    (hBusy : s.phase ≠ Phase.idle)
    (hI : sI.phase = Phase.idle) (hT : trimList text ≠ [])
    (hV : sV.phase = Phase.validating safe)
    (hC : sC.phase = Phase.calling safe st) :
    attemptEntry text sb s = (s, []) ∧
    ((attemptEntry text true sI).1.phase = Phase.validating (fixSubgraphCycles text) ∧
      (attemptEntry text true sI).2 = []) ∧
    step (Event.parsed true) sV = ({ sV with phase := Phase.calling safe true }, [safe]) ∧
    ((step (Event.deltaInput tD) sC).1.phase = Phase.calling safe st ∧
      (step (Event.finalInput tD) sC).1.phase = Phase.calling safe st ∧
      (step (Event.parsed ok) sC).1.phase = Phase.calling safe st) ∧
    (step (Event.rendered pr) sC).1.phase = Phase.idle := by
  refine ⟨?_, ⟨?_, ?_⟩, ?_, ⟨?_, ?_, ?_⟩, ?_⟩
  · unfold attemptEntry
    split
    · rfl
    · cases hp : s.phase with
      | idle => exact absurd hp hBusy
      | validating q => rfl
      | calling q b => rfl
  · simp [attemptEntry, hT, hI]
  · simp [attemptEntry, hT, hI]
  · simp [step, hV]
  · simp [step, hC]
  · simp only [step, attemptEntry]
    split
    · simpa using hC
    · simp [hC]
  · simp [step, hC]
  · cases pr <;> cases st <;> simp [step, hC]

/-- Witness for C7 at concrete states: a busy gate drops a final attempt
unchanged, and a render completion releases the gate. -/
theorem renderGate_exclusion_witness :
    attemptEntry ("graph X".data) false ⟨[], none, false, Phase.calling ("x".data) false⟩ =
      (⟨[], none, false, Phase.calling ("x".data) false⟩, []) ∧
    (step (Event.rendered (RResult.ok ("o".data)))
        ⟨[], none, false, Phase.calling ("g".data) false⟩).1.phase = Phase.idle := by
  have H := renderGate_exclusion
    ⟨[], none, false, Phase.calling ("x".data) false⟩ initState
    ⟨[], none, true, Phase.validating ("g".data)⟩
    ⟨[], none, false, Phase.calling ("g".data) false⟩
    ("graph X".data) ("y".data) ("g".data) false false
    (RResult.ok ("o".data)) false
    (by simp) rfl (by decide) rfl rfl
  exact ⟨H.1, H.2.2.2.2⟩

/-- C1 counterexample: a final attempt (`graph B`) arriving while the
render of `graph A` is in flight is silently dropped — after the in-flight
render completes, the full run has passed only `graph A` to the render
engine and never renders the final attempt's content. -/
theorem finalAttempt_dropped_cex :
    (run [Event.finalInput ("graph A".data), Event.finalInput ("graph B".data),
        Event.rendered (RResult.ok ("svgA".data))] initState).2
      = ["graph A".data] ∧
    "graph B".data ∉
      (run [Event.finalInput ("graph A".data), Event.finalInput ("graph B".data),
        Event.rendered (RResult.ok ("svgA".data))] initState).2 := by decide

/-- C1 amended: a final attempt that arrives while a render is in flight
is silently dropped — `renderMermaid` returns immediately having only
cleared the streaming indicator, and no subsequent render of that
attempt's content ever executes (unless a later input event resubmits the
same content). -/
theorem finalAttempt_dropped_whileInFlight (s : MachineState)
    (b safe : List Char) (st : Bool) (evs : List Event)
    (hPhase : s.phase = Phase.calling safe st)
    (hNoResend : ∀ t, Event.finalInput t ∈ evs →
      fixSubgraphCycles t ≠ fixSubgraphCycles b) :
    step (Event.finalInput b) s = ({ s with streaming := false }, []) ∧
    fixSubgraphCycles b ∉ (run evs { s with streaming := false }).2 := by
  constructor
  · simp only [step, attemptEntry]
    split
    · rfl
    · simp [hPhase]
  · exact run_no_render evs _ _ (by simp [hPhase]) hNoResend

/-- Witness for C1 at a concrete in-flight state and a concrete
continuation containing no further final input. -/
theorem finalAttempt_dropped_whileInFlight_witness :
    step (Event.finalInput ("graph B".data))
        ⟨[], none, true, Phase.calling ("graph A".data) false⟩ =
      (⟨[], none, false, Phase.calling ("graph A".data) false⟩, []) ∧
    fixSubgraphCycles ("graph B".data) ∉
      (run [Event.rendered (RResult.ok ("svgA".data)), Event.deltaInput ("q".data)]
        ⟨[], none, false, Phase.calling ("graph A".data) false⟩).2 := by
  have H := finalAttempt_dropped_whileInFlight
    ⟨[], none, true, Phase.calling ("graph A".data) false⟩ ("graph B".data)
    ("graph A".data) false
    [Event.rendered (RResult.ok ("svgA".data)), Event.deltaInput ("q".data)]
    rfl (by intro t ht; simp at ht)
  exact ⟨H.1, H.2⟩

/-- C3 counterexample: a burst of two partial-input events produces no
render at all — the handler only sets the streaming indicator — so in
particular the most recent snapshot's content is never rendered. -/
theorem deltaInput_noRenders_cex :
    (run [Event.deltaInput ("graph A".data), Event.deltaInput ("graph AB".data)]
      initState).2 = [] ∧
    run [Event.deltaInput ("graph A".data), Event.deltaInput ("graph AB".data)]
        initState
      = ({ initState with streaming := true }, []) := by decide

/-- C3 amended: partial-input events never trigger renders — the handler
only sets the streaming indicator, so any burst of partial-input events
executes zero renders (trivially at most ⌈span/300⌉) and leaves the SVG,
the error field and the render gate untouched; no snapshot of the burst,
superseded or not, is ever rendered from partial input. -/
theorem deltaInput_noRenders (texts : List (List Char)) (s : MachineState) :
    (run (texts.map Event.deltaInput) s).2 = [] ∧
    (run (texts.map Event.deltaInput) s).1.svg = s.svg ∧
    (run (texts.map Event.deltaInput) s).1.error = s.error ∧
    (run (texts.map Event.deltaInput) s).1.phase = s.phase := by
  induction texts generalizing s with
  | nil => simp [run]
  | cons a l ih =>
    have h := ih { s with streaming := true }
    simp only [List.map_cons, run, step, List.nil_append]
    exact ⟨h.1, h.2.1, h.2.2.1, h.2.2.2⟩

/-- C4 (modelled from the spec — the Repair Engine is absent from the
repository sources): if the text has exactly one line, repair returns it
unchanged (repair is the identity on single-line inputs); if it has more
than one line, the final line is discarded entirely — the result depends
only on the remaining lines. -/
theorem repairText_spec :
    (∀ t : List Char, (splitNL t).length = 1 → repairText t = t) ∧
    (∀ s t : List Char, 2 ≤ (splitNL s).length → 2 ≤ (splitNL t).length →
      (splitNL s).dropLast = (splitNL t).dropLast → repairText s = repairText t) := by
  constructor
  · intro t h
    unfold repairText
    simp [h]
  · intro s t hs ht h
    unfold repairText
    rw [if_neg (by omega), if_neg (by omega), h]

/-- Witness for C4: a concrete single-line input is unchanged, and two
multi-line inputs differing only in their final line repair alike. -/
theorem repairText_spec_witness :
    repairText ("graph TD".data) = "graph TD".data ∧
    repairText ("graph TD\nA[x".data) = repairText ("graph TD\nB --> C".data) := by
  exact ⟨repairText_spec.1 _ (by decide),
    repairText_spec.2 _ _ (by decide) (by decide) (by decide)⟩

end MermaidApp
